import Mathlib

/-!
Verification development for the move-decoding core of the `chess` OTB-review
repository (`src/otbreview/pipeline/decode.py`).

The decoder is a pure sequential computation over a list of observation
grids; we embed it shallowly:

* squares, ranks and files follow the python-chess convention
  (`square = rank*8 + file`, `A1 = 0`, `H8 = 63`);
* numpy `8×8` observation arrays become functions `Nat → Nat → Int`
  (the code only ever reads indices `0 ≤ r,c < 8`);
* python floats become `ℚ`.  Every score the code produces is a sum of
  integers and halves (weights 1.0 and 0.5) bounded by a few hundred, all of
  which are exactly representable in IEEE floats, so float and rational
  arithmetic agree on every comparison the code performs;
* the chess library (`python-chess`) is the external Rules Oracle of the
  spec: it is not part of this repository, so it is kept abstract as a
  structure of the operations the decoder calls (`legal_moves`, `push`,
  `san`, `piece_at`, `is_castling`);
* Python's stable `list.sort(key=...)` becomes a stable insertion sort
  (stable sorts agree on their output, so any stable sort is faithful);
* file-system side effects (`output_dir` debug artifacts, the
  `uncertain_moves.json` dump) are omitted: they do not feed back into the
  returned `(moves_san, confidence_list)` value;
* the single `IndexError` site (`board_states[0]` on an empty input list)
  is modelled with `Except`.
-/

namespace Otb

/-- Piece colors, as in python-chess (`chess.WHITE` / `chess.BLACK`). -/
inductive Color where
  | white
  | black
deriving DecidableEq, Repr

/-- A chess piece as the decoder consumes it: a piece type
(1 = pawn … 6 = king, as in python-chess) and a color. -/
structure Piece where
  piece_type : Nat
  color : Color
deriving DecidableEq, Repr

/-- A move as the decoder consumes it: the from/to squares (0–63). -/
structure Move where
  from_square : Nat
  to_square : Nat
deriving DecidableEq, Repr

/-- `chess.square_rank`: `square // 8`. -/
def square_rank (sq : Nat) : Nat := sq / 8

/-- `chess.square_file`: `square % 8`. -/
def square_file (sq : Nat) : Nat := sq % 8

/-- An observation grid (`np.ndarray` of shape `(8, 8)`), read as
`grid r c` for `grid[r, c]`.  Cell values are unconstrained integers: the
code performs no domain validation. -/
abbrev Grid := Nat → Nat → Int

/-- The 64 index pairs `(row, col)` of an `8×8` numpy array; array-wide
numpy reductions (`.sum()`) are sums over exactly these cells. -/
def squares : List (Nat × Nat) :=
  (List.range 8).flatMap fun r => (List.range 8).map fun c => (r, c)

/-- The external Rules Oracle (python-chess `Board`), per spec §2/§6:
the decoder consumes, but does not implement, these operations.  `B` is the
oracle's board-state type; `push` returns the mutated board (explicit state
passing for the in-place `board.push`). -/
structure Oracle (B : Type) where
  legal_moves : B → List Move
  push : B → Move → B
  san : B → Move → String
  piece_at : B → Nat → Option Piece
  is_castling : B → Move → Bool

/-- A scored candidate move (`{'move': ..., 'score': ...}`). -/
structure Cand where
  move : Move
  score : ℚ
deriving DecidableEq, Repr

/-- A rendered candidate inside a confidence entry
(`{'move': <san>, 'score': ...}`). -/
structure CandOut where
  move : String
  score : ℚ
deriving DecidableEq, Repr

/-- One entry of `confidence_list`.  The Python dicts have optional keys:
the unresolved occupancy entry carries no `score`, resolved entries carry no
`reason`; `Option` fields model key presence. -/
structure Conf where
  uncertain : Bool
  reason : Option String
  score : Option ℚ
  candidates : List CandOut
deriving DecidableEq, Repr

/-- The one uncaught exception the decoders can raise on their input list:
`board_states[0]` on an empty list (`IndexError`). -/
inductive DecodeError where
  | indexError
deriving DecidableEq, Repr

/-- Stable ascending insertion by score: the new element goes in front of
the first element whose score is ≥ its own, i.e. after every strictly
smaller score and before any equal score coming later in the list. -/
def insertAsc (c : Cand) : List Cand → List Cand
  | [] => [c]
  | x :: xs => if c.score ≤ x.score then c :: x :: xs else x :: insertAsc c xs

/-- Python's stable `candidates.sort(key=lambda x: x['score'])`:
ascending by score, ties kept in original (move-generation) order.  Stable
sorts have a unique output, so insertion sort is a faithful model. -/
def sortAsc : List Cand → List Cand
  | [] => []
  | x :: xs => insertAsc x (sortAsc xs)

/-- Stable descending insertion by score (for `sort(..., reverse=True)`,
which reverses the comparison but still keeps ties in original order). -/
def insertDesc (c : Cand) : List Cand → List Cand
  | [] => [c]
  | x :: xs => if x.score ≤ c.score then c :: x :: xs else x :: insertDesc c xs

/-- Python's stable `candidates.sort(key=..., reverse=True)`. -/
def sortDesc : List Cand → List Cand
  | [] => []
  | x :: xs => insertDesc x (sortDesc xs)

/-- `_board_state_to_occupancy`: `np.array(state['occupancy'], dtype=np.int32)`.
A pure container conversion — it performs no shape or cell-domain
validation whatsoever, so in the embedding (where a frame already is its
grid) it is the identity. -/
def board_state_to_occupancy (state : Grid) : Grid := state

/-- `_compute_changed_squares`: the 0/1 matrix `(prev != curr)`; it is only
ever consumed as a mask, so it is modelled as a Boolean grid. -/
def compute_changed_squares (prev curr : Grid) : Nat → Nat → Bool :=
  fun r c => decide (prev r c ≠ curr r c)

/-- `_fen_to_occupancy(test_board.fen())`: the pushed board is serialized to
FEN and re-parsed, then projected to a grid (`row = 7 - square // 8`,
`col = square % 8`; white ↦ 1, black ↦ 2, empty ↦ 0).  The FEN round-trip
preserves piece placement exactly, so it is modelled as reading the pushed
board's piece placement directly.  Defined on the `8×8` domain the code
reads (`0 ≤ r,c < 8`). -/
def fen_to_occupancy (pieceAt : Nat → Option Piece) : Grid := fun r c =>
  match pieceAt ((7 - r) * 8 + c) with
  | none => 0
  | some p => match p.color with
    | Color.white => 1
    | Color.black => 2

/-- `_compute_occupancy_distance_weighted`: numpy 0/1-matrix sums become
counts over the 64 cells.
`base = (expected != observed).sum()`;
`weighted = base + ((expected != observed) * changed).sum() * 1.0`;
`+= (((expected==1)&(observed==2)) | ((expected==2)&(observed==1))).sum() * 0.5`. -/
def compute_occupancy_distance_weighted (expected observed : Grid)
    (changed : Nat → Nat → Bool) : ℚ :=
  let base : ℚ :=
    (squares.countP fun p => decide (expected p.1 p.2 ≠ observed p.1 p.2) : ℕ)
  let weighted : ℚ := base +
    (squares.countP (fun p =>
      decide (expected p.1 p.2 ≠ observed p.1 p.2) && changed p.1 p.2) : ℕ) * 1
  let color_error : ℚ :=
    (squares.countP fun p =>
      (decide (expected p.1 p.2 = 1) && decide (observed p.1 p.2 = 2)) ||
      (decide (expected p.1 p.2 = 2) && decide (observed p.1 p.2 = 1)) : ℕ)
  weighted + color_error * (1 / 2)

/-- The candidate list built inside `_find_best_move_weighted`: every legal
move is applied to a disposable copy (`board.copy(); push`), its resulting
occupancy rendered, and the weighted distance against the observation
computed. -/
def weighted_candidates {B : Type} (O : Oracle B) (b : B) (legal : List Move)
    (curr_occupancy : Grid) (changed_squares : Nat → Nat → Bool) : List Cand :=
  legal.map fun mv =>
    ⟨mv, compute_occupancy_distance_weighted
      (fen_to_occupancy (O.piece_at (O.push b mv))) curr_occupancy changed_squares⟩

/-- `_find_best_move_weighted`: rank all legal moves by weighted occupancy
distance, ascending (lowest wins), and return `(best move, best score, full
sorted candidate list)`.  On an empty legal-move set the source returns
`(None, float('inf'), [])`; the score on that path is never consumed by the
caller, so it is rendered as `0` here.  The inner `[]` branch is
unreachable (sorting preserves length) and mirrors the source's unguarded
`candidates[0]`. -/
def find_best_move_weighted {B : Type} (O : Oracle B) (b : B)
    (prev_occupancy curr_occupancy : Grid) (changed_squares : Nat → Nat → Bool) :
    Option Move × ℚ × List Cand :=
  match O.legal_moves b with
  | [] => (none, 0, [])
  | m :: ms =>
    match sortAsc (weighted_candidates O b (m :: ms) curr_occupancy changed_squares) with
    | [] => (none, 0, [])
    | best :: rest => (some best.move, best.score, best :: rest)

/-- `_infer_id_mapping`: iterate `chess.SQUARES` (0–63); for every occupied
square whose cell in the first ID grid is nonzero, bind that ID to the
piece (`mapping[tag_id] = piece`, later squares overwrite earlier ones).
The Python dict is modelled as a lookup function `Int → Option Piece`. -/
def infer_id_mapping (pieceAt : Nat → Option Piece) (ids_grid : Grid) :
    Int → Option Piece :=
  (List.range 64).foldl
    (fun mapping sq =>
      match pieceAt sq with
      | some piece =>
        let row := 7 - square_rank sq
        let col := square_file sq
        let tag_id := ids_grid row col
        if tag_id ≠ 0 then (fun k => if k = tag_id then some piece else mapping k)
        else mapping
      | none => mapping)
    (fun _ => none)

/-- `_score_move_tags`, translated rule for rule.  `board.piece_at(from_sq)`
is `some` for every legal move (python-chess guarantees a piece on the
source square); the `getD` default only covers the branch that would be an
`AttributeError` in Python and is unreachable on the decoder's inputs. -/
def score_move_tags {B : Type} (O : Oracle B) (b : B) (move : Move)
    (prev_ids curr_ids : Grid) (id_map : Int → Option Piece) : ℚ :=
  let from_sq := move.from_square
  let to_sq := move.to_square
  let r1 := 7 - square_rank from_sq
  let c1 := square_file from_sq
  let r2 := 7 - square_rank to_sq
  let c2 := square_file to_sq
  let prev_id_at_src := prev_ids r1 c1
  let curr_id_at_dst := curr_ids r2 c2
  let curr_id_at_src := curr_ids r1 c1
  let rule1 : ℚ :=
    if curr_id_at_src = 0 then 10
    else if curr_id_at_src = prev_id_at_src then -50
    else 0
  let rule2 : ℚ :=
    if prev_id_at_src ≠ 0 then
      if curr_id_at_dst = prev_id_at_src then 100
      else if curr_id_at_dst = 0 then -10
      else -50
    else
      let moving_piece := (O.piece_at b from_sq).getD ⟨0, Color.white⟩
      if curr_id_at_dst ≠ 0 ∧ (id_map curr_id_at_dst).isSome then
        let mapped_piece := (id_map curr_id_at_dst).getD ⟨0, Color.white⟩
        if mapped_piece.piece_type = moving_piece.piece_type ∧
            mapped_piece.color = moving_piece.color then 50
        else -20
      else 0
  let rule3 : ℚ :=
    if O.is_castling b move then
      let rook : (Nat × Nat) × (Nat × Nat) :=
        if to_sq = 6 then ((7, 7), (7, 5))          -- chess.G1: h1 → f1
        else if to_sq = 2 then ((7, 0), (7, 3))     -- chess.C1: a1 → d1
        else if to_sq = 62 then ((0, 7), (0, 5))    -- chess.G8: h8 → f8
        else if to_sq = 58 then ((0, 0), (0, 3))    -- chess.C8: a8 → d8
        else ((0, 0), (0, 0))
      let rook_id := prev_ids rook.1.1 rook.1.2
      let curr_rook_dst := curr_ids rook.2.1 rook.2.2
      if rook_id ≠ 0 ∧ curr_rook_dst = rook_id then 50 else 0
    else 0
  rule1 + rule2 + rule3

/-- The candidate list built inside `_find_best_move_tags`: every legal
move scored by `_score_move_tags`, in generation order. -/
def tags_candidates {B : Type} (O : Oracle B) (b : B) (legal : List Move)
    (prev_ids curr_ids : Grid) (id_map : Int → Option Piece) : List Cand :=
  legal.map fun mv => ⟨mv, score_move_tags O b mv prev_ids curr_ids id_map⟩

/-- `_find_best_move_tags`: score all legal moves, sort descending (highest
heuristic score wins), return `(best move, best score, candidates[:3])`.
The inner `[]` branch mirrors the source's trailing `return None, 0.0, []`
(unreachable when legal moves exist, since sorting preserves length). -/
def find_best_move_tags {B : Type} (O : Oracle B) (b : B)
    (prev_ids curr_ids : Grid) (id_map : Int → Option Piece) :
    Option Move × ℚ × List Cand :=
  match O.legal_moves b with
  | [] => (none, 0, [])
  | m :: ms =>
    match sortDesc (tags_candidates O b (m :: ms) prev_ids curr_ids id_map) with
    | [] => (none, 0, [])
    | best :: rest => (some best.move, best.score, (best :: rest).take 3)

/-- The unresolved confidence entry of the occupancy loop:
`{'uncertain': True, 'reason': 'no_matching_move', 'candidates': []}`
(note: no `score` key). -/
def statesUnresolvedConf : Conf := ⟨true, some "no_matching_move", none, []⟩

/-- The unresolved confidence entry of the tag loop:
`{'uncertain': True, 'reason': 'no_matching_move', 'score': 0.0,
'candidates': []}`. -/
def tagsUnresolvedConf : Conf := ⟨true, some "no_matching_move", some 0, []⟩

/-- The `for step_idx in range(1, len(board_states))` loop of
`decode_moves_from_states`.  Faithfully, in the unresolved branch the
source does `continue`, skipping the `prev_occupancy = curr_occupancy`
update, so `prev` is carried unchanged there.  The committed move's SAN is
requested only *after* `board.push(best_move)` — from the post-move
position (lines 294–295 of the source). -/
def statesLoop {B : Type} (O : Oracle B) (uncertain_threshold dist_threshold : ℚ) :
    B → Grid → List Grid → List String × List Conf
  | _, _, [] => ([], [])
  | b, prev_occupancy, state :: rest =>
    let curr_occupancy := board_state_to_occupancy state
    let changed_squares := compute_changed_squares prev_occupancy curr_occupancy
    match find_best_move_weighted O b prev_occupancy curr_occupancy changed_squares with
    | (none, _, _) =>
      let r := statesLoop O uncertain_threshold dist_threshold b prev_occupancy rest
      ("??" :: r.1, statesUnresolvedConf :: r.2)
    | (some best_move, best_score, candidates) =>
      let uncertain :=
        (match candidates with
         | _ :: c2 :: _ => decide (c2.score - best_score < uncertain_threshold)
         | _ => false) || decide (best_score > dist_threshold)
      let b' := O.push b best_move
      let san := O.san b' best_move
      let conf : Conf :=
        ⟨uncertain, none, some best_score,
         (candidates.take 3).map fun c =>
           ⟨if c.move = best_move then san else O.san b' c.move, c.score⟩⟩
      let r := statesLoop O uncertain_threshold dist_threshold b' curr_occupancy rest
      (san :: r.1, conf :: r.2)

/-- `decode_moves_from_states` (occupancy mode).  `board_states[0]` raises
`IndexError` on an empty input; the initial board `b0` plays the role of
`chess.Board(initial_fen)`.  `output_dir` artifacts and the
`uncertain_moves.json` dump are side effects that never feed back into the
returned value and are omitted. -/
def decode_moves_from_states {B : Type} (O : Oracle B) (board_states : List Grid)
    (b0 : B) (uncertain_threshold dist_threshold : ℚ) :
    Except DecodeError (List String × List Conf) :=
  match board_states with
  | [] => .error .indexError
  | first :: rest =>
    .ok (statesLoop O uncertain_threshold dist_threshold b0
      (board_state_to_occupancy first) rest)

/-- The `for i in range(1, len(board_states))` loop of
`decode_moves_from_tags`.  Here `prev_ids` is re-read from the input each
iteration, so it advances even across unresolved steps; the best move's SAN
is rendered *before* the push, but the non-best candidates' SANs are
rendered from the post-push board (source lines 60–67). -/
def tagsLoop {B : Type} (O : Oracle B) (id_map : Int → Option Piece) :
    B → Grid → List Grid → List String × List Conf
  | _, _, [] => ([], [])
  | b, prev_ids, curr_ids :: rest =>
    match find_best_move_tags O b prev_ids curr_ids id_map with
    | (none, _, _) =>
      let r := tagsLoop O id_map b curr_ids rest
      ("??" :: r.1, tagsUnresolvedConf :: r.2)
    | (some best_move, score, candidates) =>
      let san := O.san b best_move
      let b' := O.push b best_move
      let conf : Conf :=
        ⟨false, none, some score,
         candidates.map fun c =>
           ⟨if c.move = best_move then san else O.san b' c.move, c.score⟩⟩
      let r := tagsLoop O id_map b' curr_ids rest
      (san :: r.1, conf :: r.2)

/-- `decode_moves_from_tags` (tag mode): infer the ID map from the first
frame and the starting position, then decode the consecutive frame pairs.
`board_states[0]` raises `IndexError` on an empty input list. -/
def decode_moves_from_tags {B : Type} (O : Oracle B) (board_states : List Grid)
    (b0 : B) : Except DecodeError (List String × List Conf) :=
  match board_states with
  | [] => .error .indexError
  | first :: rest =>
    let id_map := infer_id_mapping (O.piece_at b0) first
    .ok (tagsLoop O id_map b0 first rest)

/-- Instrumented occupancy loop: the same recursion as `statesLoop`, also
collecting the ghost trace of `(position immediately prior, committed
move)` pairs, for stating run-level invariants.  `statesLoopTr_fst` proves
the instrumentation does not change the computed result. -/
def statesLoopTr {B : Type} (O : Oracle B) (uncertain_threshold dist_threshold : ℚ) :
    B → Grid → List Grid → (List String × List Conf) × List (B × Move)
  | _, _, [] => (([], []), [])
  | b, prev_occupancy, state :: rest =>
    let curr_occupancy := board_state_to_occupancy state
    let changed_squares := compute_changed_squares prev_occupancy curr_occupancy
    match find_best_move_weighted O b prev_occupancy curr_occupancy changed_squares with
    | (none, _, _) =>
      let r := statesLoopTr O uncertain_threshold dist_threshold b prev_occupancy rest
      (("??" :: r.1.1, statesUnresolvedConf :: r.1.2), r.2)
    | (some best_move, best_score, candidates) =>
      let uncertain :=
        (match candidates with
         | _ :: c2 :: _ => decide (c2.score - best_score < uncertain_threshold)
         | _ => false) || decide (best_score > dist_threshold)
      let b' := O.push b best_move
      let san := O.san b' best_move
      let conf : Conf :=
        ⟨uncertain, none, some best_score,
         (candidates.take 3).map fun c =>
           ⟨if c.move = best_move then san else O.san b' c.move, c.score⟩⟩
      let r := statesLoopTr O uncertain_threshold dist_threshold b' curr_occupancy rest
      ((san :: r.1.1, conf :: r.1.2), (b, best_move) :: r.2)

/-- Instrumented tag loop, analogous to `statesLoopTr`. -/
def tagsLoopTr {B : Type} (O : Oracle B) (id_map : Int → Option Piece) :
    B → Grid → List Grid → (List String × List Conf) × List (B × Move)
  | _, _, [] => (([], []), [])
  | b, prev_ids, curr_ids :: rest =>
    match find_best_move_tags O b prev_ids curr_ids id_map with
    | (none, _, _) =>
      let r := tagsLoopTr O id_map b curr_ids rest
      (("??" :: r.1.1, tagsUnresolvedConf :: r.1.2), r.2)
    | (some best_move, score, candidates) =>
      let san := O.san b best_move
      let b' := O.push b best_move
      let conf : Conf :=
        ⟨false, none, some score,
         candidates.map fun c =>
           ⟨if c.move = best_move then san else O.san b' c.move, c.score⟩⟩
      let r := tagsLoopTr O id_map b' curr_ids rest
      ((san :: r.1.1, conf :: r.1.2), (b, best_move) :: r.2)

/-- Count of steps flagged uncertain in a confidence list. -/
def countUncertain (confidence_list : List Conf) : Nat :=
  confidence_list.countP fun c => c.uncertain

/-- The occupancy distance exactly as the spec sentence words it (claim C6):
count of mismatched squares, plus one extra unit for each mismatched square
that also changed between `prev_occupancy` and `curr_occupancy`, plus half
a unit for each square where expected and observed disagree specifically as
LIGHT (1) versus DARK (2).  Stated over an 8×8 grid's 64 cells. -/
def occupancy_distance_spec (expected observed prev curr : Grid) : ℚ :=
  (squares.countP fun p => decide (expected p.1 p.2 ≠ observed p.1 p.2) : ℕ)
  + (squares.countP fun p =>
      decide (expected p.1 p.2 ≠ observed p.1 p.2 ∧ prev p.1 p.2 ≠ curr p.1 p.2) : ℕ)
  + (1 / 2 : ℚ) * (squares.countP fun p =>
      decide ((expected p.1 p.2 = 1 ∧ observed p.1 p.2 = 2) ∨
              (expected p.1 p.2 = 2 ∧ observed p.1 p.2 = 1)) : ℕ)

/-- The tag scorer exactly as claim C4 words it: identical to
`score_move_tags` except in the `prev_ids[from] == 0` fallback, where the
claim demands “+50 if `curr_ids[to]` is present in `id_map` and its mapped
(type, color) equals the moving piece's; −20 otherwise (including when
`curr_ids[to]` is 0 or is a nonzero ID absent from `id_map`)”. -/
def score_move_tags_claimed {B : Type} (O : Oracle B) (b : B) (move : Move)
    (prev_ids curr_ids : Grid) (id_map : Int → Option Piece) : ℚ :=
  let from_sq := move.from_square
  let to_sq := move.to_square
  let r1 := 7 - square_rank from_sq
  let c1 := square_file from_sq
  let r2 := 7 - square_rank to_sq
  let c2 := square_file to_sq
  let prev_id_at_src := prev_ids r1 c1
  let curr_id_at_dst := curr_ids r2 c2
  let curr_id_at_src := curr_ids r1 c1
  let rule1 : ℚ :=
    if curr_id_at_src = 0 then 10
    else if curr_id_at_src = prev_id_at_src then -50
    else 0
  let rule2 : ℚ :=
    if prev_id_at_src ≠ 0 then
      if curr_id_at_dst = prev_id_at_src then 100
      else if curr_id_at_dst = 0 then -10
      else -50
    else
      let moving_piece := (O.piece_at b from_sq).getD ⟨0, Color.white⟩
      match id_map curr_id_at_dst with
      | some mapped_piece =>
        if mapped_piece.piece_type = moving_piece.piece_type ∧
            mapped_piece.color = moving_piece.color then 50
        else -20
      | none => -20
  let rule3 : ℚ :=
    if O.is_castling b move then
      let rook : (Nat × Nat) × (Nat × Nat) :=
        if to_sq = 6 then ((7, 7), (7, 5))
        else if to_sq = 2 then ((7, 0), (7, 3))
        else if to_sq = 62 then ((0, 7), (0, 5))
        else if to_sq = 58 then ((0, 0), (0, 3))
        else ((0, 0), (0, 0))
      let rook_id := prev_ids rook.1.1 rook.1.2
      let curr_rook_dst := curr_ids rook.2.1 rook.2.2
      if rook_id ≠ 0 ∧ curr_rook_dst = rook_id then 50 else 0
    else 0
  rule1 + rule2 + rule3

/-- The tag scorer as claim C4 must be amended to match the code: in the
`prev_ids[from] == 0` fallback, +50 when `curr_ids[to]` is a nonzero ID
present in `id_map` with matching (type, color); −20 when it is a nonzero
ID present in `id_map` with a mismatching type or color; and no adjustment
at all when `curr_ids[to]` is 0 or absent from `id_map`. -/
def score_move_tags_amended {B : Type} (O : Oracle B) (b : B) (move : Move)
    (prev_ids curr_ids : Grid) (id_map : Int → Option Piece) : ℚ :=
  let from_sq := move.from_square
  let to_sq := move.to_square
  let r1 := 7 - square_rank from_sq
  let c1 := square_file from_sq
  let r2 := 7 - square_rank to_sq
  let c2 := square_file to_sq
  let prev_id_at_src := prev_ids r1 c1
  let curr_id_at_dst := curr_ids r2 c2
  let curr_id_at_src := curr_ids r1 c1
  let rule1 : ℚ :=
    if curr_id_at_src = 0 then 10
    else if curr_id_at_src = prev_id_at_src then -50
    else 0
  let rule2 : ℚ :=
    if prev_id_at_src ≠ 0 then
      if curr_id_at_dst = prev_id_at_src then 100
      else if curr_id_at_dst = 0 then -10
      else -50
    else
      let moving_piece := (O.piece_at b from_sq).getD ⟨0, Color.white⟩
      if curr_id_at_dst = 0 then 0
      else
        match id_map curr_id_at_dst with
        | some mapped_piece =>
          if mapped_piece.piece_type = moving_piece.piece_type ∧
              mapped_piece.color = moving_piece.color then 50
          else -20
        | none => 0
  let rule3 : ℚ :=
    if O.is_castling b move then
      let rook : (Nat × Nat) × (Nat × Nat) :=
        if to_sq = 6 then ((7, 7), (7, 5))
        else if to_sq = 2 then ((7, 0), (7, 3))
        else if to_sq = 62 then ((0, 7), (0, 5))
        else if to_sq = 58 then ((0, 0), (0, 3))
        else ((0, 0), (0, 0))
      let rook_id := prev_ids rook.1.1 rook.1.2
      let curr_rook_dst := curr_ids rook.2.1 rook.2.2
      if rook_id ≠ 0 ∧ curr_rook_dst = rook_id then 50 else 0
    else 0
  rule1 + rule2 + rule3

/-!  A small concrete Rules-Oracle instance used to instantiate the
oracle-parametric theorems on executable inputs.  Its board state is a step
counter: two legal moves from the e2 square while the counter is below 2
(a pawn single and double step, with a white pawn on e2 = square 12), no
legal moves from state 5 on; `san` mentions the board state, so notation
rendered before and after a push is distinguishable. -/

/-- Concrete toy oracle over board type `Nat` (a step counter). -/
def toyO : Oracle Nat where
  legal_moves b := if b < 2 then [⟨12, 28⟩, ⟨12, 20⟩] else []
  push b _ := b + 1
  san b m := "sq" ++ toString m.to_square ++ "@" ++ toString b
  piece_at _ sq := if sq = 12 then some ⟨1, Color.white⟩ else none
  is_castling _ _ := false

/-- The all-zero grid (standard “nothing observed / empty” frame). -/
def zeroGrid : Grid := fun _ _ => 0

/-- Occupancy frame with cell (6,4) = 1: exactly the occupancy the toy
oracle predicts after any push (white pawn on square 12 ↦ row 6, col 4). -/
def occFrame1 : Grid := fun r c => if r = 6 ∧ c = 4 then 1 else 0

/-- Occupancy frame containing the out-of-domain cell value 7 at (0,0). -/
def badOccFrame : Grid := fun r c => if r = 0 ∧ c = 0 then 7 else 0

/-- ID frame with tag 5 on the e2 cell (row 6, col 4), zero elsewhere. -/
def idFrame0 : Grid := fun r c => if r = 6 ∧ c = 4 then 5 else 0

/-- ID frame holding the out-of-domain (negative) tag value −5 at (4,4). -/
def idFrameNeg : Grid := fun r c => if r = 4 ∧ c = 4 then -5 else 0

end Otb

namespace Otb

/-!  Shared lemmas. -/

/-- The 64 cells of `squares`, as a literal list (used to evaluate concrete
grid counts). -/
theorem squares_eq : squares = [(0, 0), (0, 1), (0, 2), (0, 3), (0, 4), (0, 5), (0, 6), (0, 7), (1, 0), (1, 1), (1, 2), (1, 3), (1, 4), (1, 5), (1, 6), (1, 7), (2, 0), (2, 1), (2, 2), (2, 3), (2, 4), (2, 5), (2, 6), (2, 7), (3, 0), (3, 1), (3, 2), (3, 3), (3, 4), (3, 5), (3, 6), (3, 7), (4, 0), (4, 1), (4, 2), (4, 3), (4, 4), (4, 5), (4, 6), (4, 7), (5, 0), (5, 1), (5, 2), (5, 3), (5, 4), (5, 5), (5, 6), (5, 7), (6, 0), (6, 1), (6, 2), (6, 3), (6, 4), (6, 5), (6, 6), (6, 7), (7, 0), (7, 1), (7, 2), (7, 3), (7, 4), (7, 5), (7, 6), (7, 7)] := by rfl

theorem length_insertAsc (c : Cand) (l : List Cand) :
    (insertAsc c l).length = l.length + 1 := by
  induction l with
  | nil => rfl
  | cons x xs ih =>
    rw [insertAsc]
    split
    · rfl
    · simp [ih]

theorem length_sortAsc (l : List Cand) : (sortAsc l).length = l.length := by
  induction l with
  | nil => rfl
  | cons x xs ih =>
    rw [sortAsc, length_insertAsc, ih]
    rfl

theorem mem_insertAsc {a c : Cand} {l : List Cand} :
    a ∈ insertAsc c l ↔ a = c ∨ a ∈ l := by
  induction l with
  | nil => simp [insertAsc]
  | cons x xs ih =>
    rw [insertAsc]
    split
    · simp [List.mem_cons]
    · simp only [List.mem_cons, ih]
      tauto

theorem sortAsc_eq_nil_iff {l : List Cand} : sortAsc l = [] ↔ l = [] := by
  rw [← List.length_eq_zero, length_sortAsc, List.length_eq_zero]

theorem mem_sortAsc {a : Cand} {l : List Cand} : a ∈ sortAsc l ↔ a ∈ l := by
  induction l with
  | nil => simp [sortAsc]
  | cons x xs ih =>
    rw [sortAsc, mem_insertAsc, ih]
    simp [List.mem_cons]

theorem pairwise_insertAsc {c : Cand} {l : List Cand}
    (h : l.Pairwise fun c₁ c₂ => c₁.score ≤ c₂.score) :
    (insertAsc c l).Pairwise fun c₁ c₂ => c₁.score ≤ c₂.score := by
  induction l with
  | nil => simp [insertAsc]
  | cons x xs ih =>
    rcases List.pairwise_cons.mp h with ⟨hx, hxs⟩
    rw [insertAsc]
    by_cases hc : c.score ≤ x.score
    · rw [if_pos hc]
      refine List.pairwise_cons.mpr ⟨?_, h⟩
      intro b hb
      rcases List.mem_cons.mp hb with rfl | hb
      · exact hc
      · exact hc.trans (hx b hb)
    · rw [if_neg hc]
      refine List.pairwise_cons.mpr ⟨?_, ih hxs⟩
      intro b hb
      rcases mem_insertAsc.mp hb with rfl | hb
      · exact le_of_not_le hc
      · exact hx b hb

theorem pairwise_sortAsc (l : List Cand) :
    (sortAsc l).Pairwise fun c₁ c₂ => c₁.score ≤ c₂.score := by
  induction l with
  | nil => simp [sortAsc]
  | cons x xs ih =>
    rw [sortAsc]
    exact pairwise_insertAsc ih

theorem filter_insertAsc (q : ℚ) (c : Cand) (l : List Cand) :
    (insertAsc c l).filter (fun a => decide (a.score = q)) =
      if c.score = q then c :: l.filter (fun a => decide (a.score = q))
      else l.filter (fun a => decide (a.score = q)) := by
  induction l with
  | nil =>
    rw [insertAsc]
    by_cases hq : c.score = q <;> simp [List.filter, hq]
  | cons x xs ih =>
    rw [insertAsc]
    by_cases hc : c.score ≤ x.score
    · rw [if_pos hc]
      by_cases hq : c.score = q <;> simp [List.filter_cons, hq]
    · rw [if_neg hc]
      by_cases hxq : x.score = q <;> by_cases hcq : c.score = q <;>
        simp [List.filter_cons, hxq, hcq, ih]
      exact absurd (hcq ▸ hxq ▸ le_refl q) hc

theorem filter_sortAsc (q : ℚ) (l : List Cand) :
    (sortAsc l).filter (fun a => decide (a.score = q)) =
      l.filter (fun a => decide (a.score = q)) := by
  induction l with
  | nil => rfl
  | cons x xs ih =>
    rw [sortAsc, filter_insertAsc]
    by_cases hq : x.score = q <;> simp [List.filter_cons, hq, ih]

theorem length_insertDesc (c : Cand) (l : List Cand) :
    (insertDesc c l).length = l.length + 1 := by
  induction l with
  | nil => rfl
  | cons x xs ih =>
    rw [insertDesc]
    split
    · rfl
    · simp [ih]

theorem length_sortDesc (l : List Cand) : (sortDesc l).length = l.length := by
  induction l with
  | nil => rfl
  | cons x xs ih =>
    rw [sortDesc, length_insertDesc, ih]
    rfl

theorem mem_insertDesc {a c : Cand} {l : List Cand} :
    a ∈ insertDesc c l ↔ a = c ∨ a ∈ l := by
  induction l with
  | nil => simp [insertDesc]
  | cons x xs ih =>
    rw [insertDesc]
    split
    · simp [List.mem_cons]
    · simp only [List.mem_cons, ih]
      tauto

theorem sortDesc_eq_nil_iff {l : List Cand} : sortDesc l = [] ↔ l = [] := by
  rw [← List.length_eq_zero, length_sortDesc, List.length_eq_zero]

theorem mem_sortDesc {a : Cand} {l : List Cand} : a ∈ sortDesc l ↔ a ∈ l := by
  induction l with
  | nil => simp [sortDesc]
  | cons x xs ih =>
    rw [sortDesc, mem_insertDesc, ih]
    simp [List.mem_cons]

theorem pairwise_insertDesc {c : Cand} {l : List Cand}
    (h : l.Pairwise fun c₁ c₂ => c₂.score ≤ c₁.score) :
    (insertDesc c l).Pairwise fun c₁ c₂ => c₂.score ≤ c₁.score := by
  induction l with
  | nil => simp [insertDesc]
  | cons x xs ih =>
    rcases List.pairwise_cons.mp h with ⟨hx, hxs⟩
    rw [insertDesc]
    by_cases hc : x.score ≤ c.score
    · rw [if_pos hc]
      refine List.pairwise_cons.mpr ⟨?_, h⟩
      intro b hb
      rcases List.mem_cons.mp hb with rfl | hb
      · exact hc
      · exact (hx b hb).trans hc
    · rw [if_neg hc]
      refine List.pairwise_cons.mpr ⟨?_, ih hxs⟩
      intro b hb
      rcases mem_insertDesc.mp hb with rfl | hb
      · exact le_of_not_le hc
      · exact hx b hb

theorem pairwise_sortDesc (l : List Cand) :
    (sortDesc l).Pairwise fun c₁ c₂ => c₂.score ≤ c₁.score := by
  induction l with
  | nil => simp [sortDesc]
  | cons x xs ih =>
    rw [sortDesc]
    exact pairwise_insertDesc ih

theorem filter_insertDesc (q : ℚ) (c : Cand) (l : List Cand) :
    (insertDesc c l).filter (fun a => decide (a.score = q)) =
      if c.score = q then c :: l.filter (fun a => decide (a.score = q))
      else l.filter (fun a => decide (a.score = q)) := by
  induction l with
  | nil =>
    rw [insertDesc]
    by_cases hq : c.score = q <;> simp [List.filter, hq]
  | cons x xs ih =>
    rw [insertDesc]
    by_cases hc : x.score ≤ c.score
    · rw [if_pos hc]
      by_cases hq : c.score = q <;> simp [List.filter_cons, hq]
    · rw [if_neg hc]
      by_cases hxq : x.score = q <;> by_cases hcq : c.score = q <;>
        simp [List.filter_cons, hxq, hcq, ih]
      exact absurd (hxq ▸ hcq ▸ le_refl q) hc

theorem filter_sortDesc (q : ℚ) (l : List Cand) :
    (sortDesc l).filter (fun a => decide (a.score = q)) =
      l.filter (fun a => decide (a.score = q)) := by
  induction l with
  | nil => rfl
  | cons x xs ih =>
    rw [sortDesc, filter_insertDesc]
    by_cases hq : x.score = q <;> simp [List.filter_cons, hq, ih]

/-- `_find_best_move_weighted` in one equation: sort all scored candidates
ascending and split on the result. -/
theorem find_best_move_weighted_eq {B : Type} (O : Oracle B) (b : B)
    (prev curr : Grid) (ch : Nat → Nat → Bool) :
    find_best_move_weighted O b prev curr ch =
      match sortAsc (weighted_candidates O b (O.legal_moves b) curr ch) with
      | [] => (none, 0, [])
      | best :: rest => (some best.move, best.score, best :: rest) := by
  unfold find_best_move_weighted
  cases hL : O.legal_moves b with
  | nil => simp [weighted_candidates, sortAsc]
  | cons m ms => rfl

/-- `_find_best_move_tags` in one equation. -/
theorem find_best_move_tags_eq {B : Type} (O : Oracle B) (b : B)
    (prev_ids curr_ids : Grid) (id_map : Int → Option Piece) :
    find_best_move_tags O b prev_ids curr_ids id_map =
      match sortDesc (tags_candidates O b (O.legal_moves b) prev_ids curr_ids id_map) with
      | [] => (none, 0, [])
      | best :: rest => (some best.move, best.score, (best :: rest).take 3) := by
  unfold find_best_move_tags
  cases hL : O.legal_moves b with
  | nil => simp [tags_candidates, sortDesc]
  | cons m ms => rfl

theorem find_best_move_weighted_none_iff {B : Type} (O : Oracle B) (b : B)
    (prev curr : Grid) (ch : Nat → Nat → Bool) :
    (find_best_move_weighted O b prev curr ch).1 = none ↔ O.legal_moves b = [] := by
  rw [find_best_move_weighted_eq]
  cases hS : sortAsc (weighted_candidates O b (O.legal_moves b) curr ch) with
  | nil =>
    simp only [sortAsc_eq_nil_iff, weighted_candidates, List.map_eq_nil_iff] at hS
    simp [hS]
  | cons best rest =>
    have : weighted_candidates O b (O.legal_moves b) curr ch ≠ [] := by
      intro h
      rw [h] at hS
      simp [sortAsc] at hS
    simp only [weighted_candidates, ne_eq, List.map_eq_nil_iff] at this
    simp [this]

theorem find_best_move_tags_none_iff {B : Type} (O : Oracle B) (b : B)
    (prev_ids curr_ids : Grid) (id_map : Int → Option Piece) :
    (find_best_move_tags O b prev_ids curr_ids id_map).1 = none ↔
      O.legal_moves b = [] := by
  rw [find_best_move_tags_eq]
  cases hS : sortDesc (tags_candidates O b (O.legal_moves b) prev_ids curr_ids id_map) with
  | nil =>
    simp only [sortDesc_eq_nil_iff, tags_candidates, List.map_eq_nil_iff] at hS
    simp [hS]
  | cons best rest =>
    have : tags_candidates O b (O.legal_moves b) prev_ids curr_ids id_map ≠ [] := by
      intro h
      rw [h] at hS
      simp [sortDesc] at hS
    simp only [tags_candidates, ne_eq, List.map_eq_nil_iff] at this
    simp [this]

theorem find_best_move_weighted_cands_nil_iff {B : Type} (O : Oracle B) (b : B)
    (prev curr : Grid) (ch : Nat → Nat → Bool) :
    (find_best_move_weighted O b prev curr ch).2.2 = [] ↔ O.legal_moves b = [] := by
  rw [find_best_move_weighted_eq]
  cases hS : sortAsc (weighted_candidates O b (O.legal_moves b) curr ch) with
  | nil =>
    simp only [sortAsc_eq_nil_iff, weighted_candidates, List.map_eq_nil_iff] at hS
    simp [hS]
  | cons best rest =>
    have : weighted_candidates O b (O.legal_moves b) curr ch ≠ [] := by
      intro h
      rw [h] at hS
      simp [sortAsc] at hS
    simp only [weighted_candidates, ne_eq, List.map_eq_nil_iff] at this
    simp [this]

theorem find_best_move_tags_cands_nil_iff {B : Type} (O : Oracle B) (b : B)
    (prev_ids curr_ids : Grid) (id_map : Int → Option Piece) :
    (find_best_move_tags O b prev_ids curr_ids id_map).2.2 = [] ↔
      O.legal_moves b = [] := by
  rw [find_best_move_tags_eq]
  cases hS : sortDesc (tags_candidates O b (O.legal_moves b) prev_ids curr_ids id_map) with
  | nil =>
    simp only [sortDesc_eq_nil_iff, tags_candidates, List.map_eq_nil_iff] at hS
    simp [hS]
  | cons best rest =>
    have : tags_candidates O b (O.legal_moves b) prev_ids curr_ids id_map ≠ [] := by
      intro h
      rw [h] at hS
      simp [sortDesc] at hS
    simp only [tags_candidates, ne_eq, List.map_eq_nil_iff] at this
    simp [this, List.take]

/-- Every candidate the occupancy finder returns is a scored legal move. -/
theorem find_best_move_weighted_cands_mem {B : Type} {O : Oracle B} {b : B}
    {prev curr : Grid} {ch : Nat → Nat → Bool} {cd : Cand}
    (h : cd ∈ (find_best_move_weighted O b prev curr ch).2.2) :
    cd.move ∈ O.legal_moves b ∧
      cd.score = compute_occupancy_distance_weighted
        (fen_to_occupancy (O.piece_at (O.push b cd.move))) curr ch := by
  rw [find_best_move_weighted_eq] at h
  have hmem : cd ∈ sortAsc (weighted_candidates O b (O.legal_moves b) curr ch) := by
    cases hS : sortAsc (weighted_candidates O b (O.legal_moves b) curr ch) with
    | nil => rw [hS] at h; simp at h
    | cons best rest => rw [hS] at h; simpa [hS] using h
  rw [mem_sortAsc, weighted_candidates, List.mem_map] at hmem
  rcases hmem with ⟨mv, hmv, rfl⟩
  exact ⟨hmv, rfl⟩

/-- Every candidate the tag finder returns is a scored legal move. -/
theorem find_best_move_tags_cands_mem {B : Type} {O : Oracle B} {b : B}
    {prev_ids curr_ids : Grid} {id_map : Int → Option Piece} {cd : Cand}
    (h : cd ∈ (find_best_move_tags O b prev_ids curr_ids id_map).2.2) :
    cd.move ∈ O.legal_moves b ∧
      cd.score = score_move_tags O b cd.move prev_ids curr_ids id_map := by
  rw [find_best_move_tags_eq] at h
  have hmem : cd ∈ sortDesc (tags_candidates O b (O.legal_moves b) prev_ids curr_ids id_map) := by
    cases hS : sortDesc (tags_candidates O b (O.legal_moves b) prev_ids curr_ids id_map) with
    | nil => rw [hS] at h; simp at h
    | cons best rest =>
      rw [hS] at h
      simp only at h
      exact List.mem_of_mem_take h
  rw [mem_sortDesc, tags_candidates, List.mem_map] at hmem
  rcases hmem with ⟨mv, hmv, rfl⟩
  exact ⟨hmv, rfl⟩

/-- The occupancy finder's best move is drawn from the legal-move list. -/
theorem find_best_move_weighted_some_mem {B : Type} {O : Oracle B} {b : B}
    {prev curr : Grid} {ch : Nat → Nat → Bool} {m : Move}
    (h : (find_best_move_weighted O b prev curr ch).1 = some m) :
    m ∈ O.legal_moves b := by
  rw [find_best_move_weighted_eq] at h
  cases hS : sortAsc (weighted_candidates O b (O.legal_moves b) curr ch) with
  | nil => rw [hS] at h; simp at h
  | cons best rest =>
    rw [hS] at h
    simp only [Option.some.injEq] at h
    subst h
    have hmem : best ∈ sortAsc (weighted_candidates O b (O.legal_moves b) curr ch) := by
      rw [hS]; exact List.mem_cons_self _ _
    rw [mem_sortAsc, weighted_candidates, List.mem_map] at hmem
    rcases hmem with ⟨mv, hmv, rfl⟩
    exact hmv

/-- The tag finder's best move is drawn from the legal-move list. -/
theorem find_best_move_tags_some_mem {B : Type} {O : Oracle B} {b : B}
    {prev_ids curr_ids : Grid} {id_map : Int → Option Piece} {m : Move}
    (h : (find_best_move_tags O b prev_ids curr_ids id_map).1 = some m) :
    m ∈ O.legal_moves b := by
  rw [find_best_move_tags_eq] at h
  cases hS : sortDesc (tags_candidates O b (O.legal_moves b) prev_ids curr_ids id_map) with
  | nil => rw [hS] at h; simp at h
  | cons best rest =>
    rw [hS] at h
    simp only [Option.some.injEq] at h
    subst h
    have hmem : best ∈ sortDesc (tags_candidates O b (O.legal_moves b) prev_ids curr_ids id_map) := by
      rw [hS]; exact List.mem_cons_self _ _
    rw [mem_sortDesc, tags_candidates, List.mem_map] at hmem
    rcases hmem with ⟨mv, hmv, rfl⟩
    exact hmv

/-- The instrumented occupancy loop computes exactly what `statesLoop`
computes (the ghost trace changes nothing). -/
theorem statesLoopTr_fst {B : Type} (O : Oracle B) (u d : ℚ) :
    ∀ (fs : List Grid) (b : B) (p : Grid),
      (statesLoopTr O u d b p fs).1 = statesLoop O u d b p fs := by
  intro fs
  induction fs with
  | nil => intro b p; rfl
  | cons g rest ih =>
    intro b p
    rcases hF : find_best_move_weighted O b p (board_state_to_occupancy g)
      (compute_changed_squares p (board_state_to_occupancy g)) with ⟨bm, s, cands⟩
    cases bm with
    | none => simp only [statesLoop, statesLoopTr, hF]; simp [ih]
    | some m => simp only [statesLoop, statesLoopTr, hF]; simp [ih]

/-- The instrumented tag loop computes exactly what `tagsLoop` computes. -/
theorem tagsLoopTr_fst {B : Type} (O : Oracle B) (id_map : Int → Option Piece) :
    ∀ (fs : List Grid) (b : B) (p : Grid),
      (tagsLoopTr O id_map b p fs).1 = tagsLoop O id_map b p fs := by
  intro fs
  induction fs with
  | nil => intro b p; rfl
  | cons g rest ih =>
    intro b p
    rcases hF : find_best_move_tags O b p g id_map with ⟨bm, s, cands⟩
    cases bm with
    | none => simp only [tagsLoop, tagsLoopTr, hF]; simp [ih]
    | some m => simp only [tagsLoop, tagsLoopTr, hF]; simp [ih]

/-- Every committed step of the occupancy run takes its move from the
legal-move enumeration of the position immediately prior. -/
theorem statesLoopTr_legal {B : Type} (O : Oracle B) (u d : ℚ) :
    ∀ (fs : List Grid) (b : B) (p : Grid) (pr : B × Move),
      pr ∈ (statesLoopTr O u d b p fs).2 → pr.2 ∈ O.legal_moves pr.1 := by
  intro fs
  induction fs with
  | nil => intro b p pr h; simp [statesLoopTr] at h
  | cons g rest ih =>
    intro b p pr h
    rcases hF : find_best_move_weighted O b p (board_state_to_occupancy g)
      (compute_changed_squares p (board_state_to_occupancy g)) with ⟨bm, s, cands⟩
    cases bm with
    | none =>
      simp only [statesLoopTr, hF] at h
      exact ih b p pr h
    | some m =>
      simp only [statesLoopTr, hF, List.mem_cons] at h
      rcases h with rfl | h
      · exact find_best_move_weighted_some_mem (by rw [hF])
      · exact ih _ _ pr h

/-- Every committed step of the tag run takes its move from the
legal-move enumeration of the position immediately prior. -/
theorem tagsLoopTr_legal {B : Type} (O : Oracle B) (id_map : Int → Option Piece) :
    ∀ (fs : List Grid) (b : B) (p : Grid) (pr : B × Move),
      pr ∈ (tagsLoopTr O id_map b p fs).2 → pr.2 ∈ O.legal_moves pr.1 := by
  intro fs
  induction fs with
  | nil => intro b p pr h; simp [tagsLoopTr] at h
  | cons g rest ih =>
    intro b p pr h
    rcases hF : find_best_move_tags O b p g id_map with ⟨bm, s, cands⟩
    cases bm with
    | none =>
      simp only [tagsLoopTr, hF] at h
      exact ih b g pr h
    | some m =>
      simp only [tagsLoopTr, hF, List.mem_cons] at h
      rcases h with rfl | h
      · exact find_best_move_tags_some_mem (by rw [hF])
      · exact ih _ _ pr h

theorem countUncertain_cons (c : Conf) (cs : List Conf) :
    countUncertain (c :: cs) = countUncertain cs + if c.uncertain then 1 else 0 :=
  List.countP_cons _ _ _

theorem uncertain_flag_mono {gb : Bool} {da db s : ℚ} (hd : da ≤ db) :
    (if (gb || decide (s > db)) = true then (1 : ℕ) else 0) ≤
      (if (gb || decide (s > da)) = true then 1 else 0) := by
  cases gb
  · simp only [Bool.false_or]
    by_cases hdb : s > db
    · have hda : s > da := lt_of_le_of_lt hd hdb
      simp [hdb, hda]
    · simp [hdb]
  · simp

/-- Raising `dist_threshold` (with `uncertain_threshold` fixed) leaves the
move list unchanged and can only clear, never set, uncertain flags. -/
theorem statesLoop_mono {B : Type} (O : Oracle B) (u da db : ℚ) (hd : da ≤ db) :
    ∀ (fs : List Grid) (b : B) (p : Grid),
      (statesLoop O u db b p fs).1 = (statesLoop O u da b p fs).1 ∧
        countUncertain (statesLoop O u db b p fs).2 ≤
          countUncertain (statesLoop O u da b p fs).2 := by
  intro fs
  induction fs with
  | nil => intro b p; exact ⟨rfl, le_refl _⟩
  | cons g rest ih =>
    intro b p
    rcases hF : find_best_move_weighted O b p (board_state_to_occupancy g)
      (compute_changed_squares p (board_state_to_occupancy g)) with ⟨bm, s, cands⟩
    cases bm with
    | none =>
      simp only [statesLoop, hF]
      rcases ih b p with ⟨h1, h2⟩
      refine ⟨by simp [h1], ?_⟩
      simp only [countUncertain, List.countP_cons, statesUnresolvedConf]
      exact Nat.add_le_add h2 (le_refl _)
    | some m =>
      simp only [statesLoop, hF]
      rcases ih (O.push b m) (board_state_to_occupancy g) with ⟨h1, h2⟩
      refine ⟨by simp [h1], ?_⟩
      rw [countUncertain_cons, countUncertain_cons]
      exact Nat.add_le_add h2 (uncertain_flag_mono hd)

/-!  Claim theorems. -/

/-- C1: legality invariant — in either decode mode, every committed step's
move is a member of the Rules Oracle's legal-move enumeration from the
position immediately prior to that step, and the scorers only ever rank
moves drawn from that enumeration. -/
theorem C1_legality {B : Type} (O : Oracle B) (u d : ℚ) (b : B) (prev : Grid)
    (frames : List Grid) (id_map : Int → Option Piece)
    (curr prevIds currIds : Grid) :
    (∀ pr ∈ (statesLoopTr O u d b prev frames).2, pr.2 ∈ O.legal_moves pr.1)
    ∧ (∀ pr ∈ (tagsLoopTr O id_map b prev frames).2, pr.2 ∈ O.legal_moves pr.1)
    ∧ (∀ cd ∈ (find_best_move_weighted O b prev curr
        (compute_changed_squares prev curr)).2.2, cd.move ∈ O.legal_moves b)
    ∧ (∀ cd ∈ (find_best_move_tags O b prevIds currIds id_map).2.2,
        cd.move ∈ O.legal_moves b) :=
  ⟨fun pr h => statesLoopTr_legal O u d frames b prev pr h,
   fun pr h => tagsLoopTr_legal O id_map frames b prev pr h,
   fun _ h => (find_best_move_weighted_cands_mem h).1,
   fun _ h => (find_best_move_tags_cands_mem h).1⟩

/-- C1 witness: on the toy oracle's opening run the one committed step is
`(position 0, move 12→28)`, and that move is legal at position 0. -/
theorem C1_legality_witness :
    (0, Move.mk 12 28) ∈ (statesLoopTr toyO (1/10) 2 0 zeroGrid [occFrame1]).2
    ∧ Move.mk 12 28 ∈ toyO.legal_moves 0 := by
  have hm : (0, Move.mk 12 28) ∈ (statesLoopTr toyO (1/10) 2 0 zeroGrid [occFrame1]).2 := by
    norm_num [statesLoopTr, find_best_move_weighted, weighted_candidates,
      compute_occupancy_distance_weighted, fen_to_occupancy, compute_changed_squares,
      board_state_to_occupancy, sortAsc, insertAsc, squares_eq, toyO, zeroGrid,
      occFrame1, square_rank, square_file]
  exact ⟨hm, (C1_legality toyO (1/10) 2 0 zeroGrid [occFrame1] (fun _ => none)
    zeroGrid zeroGrid zeroGrid).1 _ hm⟩

/-- C4 counterexample: with `prev_ids[from] = 0` and `curr_ids[to] = 0`
the source scorer adds nothing in the type-matching fallback (total +10
from the vacated-source rule), whereas the claim's wording (−20 in this
case) would yield −10: the claim as stated is false on the code. -/
theorem C4_counterexample :
    zeroGrid (7 - square_rank 12) (square_file 12) = 0
    ∧ zeroGrid (7 - square_rank 28) (square_file 28) = 0
    ∧ score_move_tags toyO 0 ⟨12, 28⟩ zeroGrid zeroGrid (fun _ => none) = 10
    ∧ score_move_tags_claimed toyO 0 ⟨12, 28⟩ zeroGrid zeroGrid (fun _ => none) = -10 := by
  refine ⟨rfl, rfl, ?_, ?_⟩
  · norm_num [score_move_tags, toyO, zeroGrid, square_rank, square_file]
  · norm_num [score_move_tags_claimed, toyO, zeroGrid, square_rank, square_file]

/-- C4 (amended): the fallback adds +50 only for a nonzero ID present in
`id_map` with matching (type, color), −20 only for a nonzero ID present in
`id_map` with a mismatch, and nothing when `curr_ids[to]` is 0 or absent
from `id_map` — i.e. the source scorer coincides with the amended-spec
scorer on all inputs. -/
theorem C4_amended {B : Type} (O : Oracle B) (b : B) (move : Move)
    (prev_ids curr_ids : Grid) (id_map : Int → Option Piece) :
    score_move_tags O b move prev_ids curr_ids id_map =
      score_move_tags_amended O b move prev_ids curr_ids id_map := by
  simp only [score_move_tags, score_move_tags_amended]
  by_cases h0 : curr_ids (7 - square_rank move.to_square) (square_file move.to_square) = 0
  · simp [h0]
  · cases hL : id_map (curr_ids (7 - square_rank move.to_square) (square_file move.to_square)) with
    | none => simp [h0, hL]
    | some mapped => simp [h0, hL]

/-- C6: the weighted occupancy distance is exactly the spec's formula
(mismatch count, plus one unit per mismatched-and-changed square, plus half
a unit per LIGHT/DARK confusion), and the occupancy finder returns every
candidate scored by that distance, ranked ascending. -/
theorem C6_distance {B : Type} (O : Oracle B) (b : B)
    (prev curr expected observed : Grid) :
    (compute_occupancy_distance_weighted expected observed
        (compute_changed_squares prev curr)
      = occupancy_distance_spec expected observed prev curr)
    ∧ (find_best_move_weighted O b prev curr
        (compute_changed_squares prev curr)).2.2.Pairwise
          (fun c₁ c₂ => c₁.score ≤ c₂.score)
    ∧ (∀ cd ∈ (find_best_move_weighted O b prev curr
          (compute_changed_squares prev curr)).2.2,
        cd.score = compute_occupancy_distance_weighted
          (fen_to_occupancy (O.piece_at (O.push b cd.move))) curr
          (compute_changed_squares prev curr)) := by
  refine ⟨?_, ?_, fun _ h => (find_best_move_weighted_cands_mem h).2⟩
  · have hc1 : squares.countP (fun p =>
        decide (expected p.1 p.2 ≠ observed p.1 p.2) &&
          compute_changed_squares prev curr p.1 p.2)
        = squares.countP (fun p =>
            decide (expected p.1 p.2 ≠ observed p.1 p.2 ∧ prev p.1 p.2 ≠ curr p.1 p.2)) := by
      apply List.countP_congr
      intro a _
      simp [compute_changed_squares, Bool.decide_and]
    have hc2 : squares.countP (fun p =>
        (decide (expected p.1 p.2 = 1) && decide (observed p.1 p.2 = 2)) ||
          (decide (expected p.1 p.2 = 2) && decide (observed p.1 p.2 = 1)))
        = squares.countP (fun p =>
            decide ((expected p.1 p.2 = 1 ∧ observed p.1 p.2 = 2) ∨
                    (expected p.1 p.2 = 2 ∧ observed p.1 p.2 = 1))) := by
      apply List.countP_congr
      intro a _
      simp [Bool.decide_or, Bool.decide_and]
    simp only [compute_occupancy_distance_weighted, occupancy_distance_spec, hc1, hc2]
    ring
  · rw [find_best_move_weighted_eq]
    cases hS : sortAsc (weighted_candidates O b (O.legal_moves b) curr
        (compute_changed_squares prev curr)) with
    | nil => simp
    | cons best tail =>
      have := pairwise_sortAsc (weighted_candidates O b (O.legal_moves b) curr
        (compute_changed_squares prev curr))
      rw [hS] at this
      simpa using this

/-- C6 witness: on the toy oracle the candidate `(12→28, 0)` is returned by
the occupancy finder and its recorded score equals the weighted occupancy
distance of its post-move occupancy against the observation. -/
theorem C6_distance_witness :
    (⟨⟨12, 28⟩, 0⟩ : Cand) ∈ (find_best_move_weighted toyO 0 zeroGrid occFrame1
      (compute_changed_squares zeroGrid occFrame1)).2.2
    ∧ (⟨⟨12, 28⟩, 0⟩ : Cand).score = compute_occupancy_distance_weighted
        (fen_to_occupancy (toyO.piece_at (toyO.push 0 ⟨12, 28⟩))) occFrame1
        (compute_changed_squares zeroGrid occFrame1) := by
  have hm : (⟨⟨12, 28⟩, 0⟩ : Cand) ∈ (find_best_move_weighted toyO 0 zeroGrid occFrame1
      (compute_changed_squares zeroGrid occFrame1)).2.2 := by
    norm_num [find_best_move_weighted, weighted_candidates,
      compute_occupancy_distance_weighted, fen_to_occupancy, compute_changed_squares,
      sortAsc, insertAsc, squares_eq, toyO, zeroGrid, occFrame1, square_rank, square_file]
  exact ⟨hm, (C6_distance toyO 0 zeroGrid occFrame1 occFrame1 occFrame1).2.2 _ hm⟩

/-- C8: with `uncertain_threshold` fixed, raising `dist_threshold` from
`da` to `db ≥ da` leaves the committed move list unchanged and never
increases the number of steps flagged uncertain. -/
theorem C8_dist_threshold_monotone {B : Type} (O : Oracle B) (frames : List Grid)
    (b0 : B) (u da db : ℚ) (hd : da ≤ db) (ra rb : List String × List Conf)
    (ha : decode_moves_from_states O frames b0 u da = .ok ra)
    (hb : decode_moves_from_states O frames b0 u db = .ok rb) :
    rb.1 = ra.1 ∧ countUncertain rb.2 ≤ countUncertain ra.2 := by
  cases frames with
  | nil => simp [decode_moves_from_states] at ha
  | cons first rest =>
    simp only [decode_moves_from_states, Except.ok.injEq] at ha hb
    subst ha
    subst hb
    exact statesLoop_mono O u da db hd rest b0 (board_state_to_occupancy first)

/-- C8 witness: on the toy run, thresholds 1 ≤ 2 give the same move list
and no more uncertain steps at threshold 2 than at threshold 1. -/
theorem C8_dist_threshold_monotone_witness :
    (1 : ℚ) ≤ 2
    ∧ (statesLoop toyO (1/10) 2 0 (board_state_to_occupancy zeroGrid) [occFrame1]).1
        = (statesLoop toyO (1/10) 1 0 (board_state_to_occupancy zeroGrid) [occFrame1]).1
    ∧ countUncertain (statesLoop toyO (1/10) 2 0 (board_state_to_occupancy zeroGrid) [occFrame1]).2
        ≤ countUncertain (statesLoop toyO (1/10) 1 0 (board_state_to_occupancy zeroGrid) [occFrame1]).2 := by
  have h := C8_dist_threshold_monotone toyO [zeroGrid, occFrame1] 0 (1/10) 1 2
    (by norm_num) _ _ rfl rfl
  exact ⟨by norm_num, h.1, h.2⟩

/-- C9: determinism — identical observation sequences, initial arrangement
and thresholds give identical output in both modes, and the candidate
ordering is the unique stable sort: sorted by score (ascending for
occupancy, descending for tags) with equal-score candidates kept in
move-generation order (witnessed by score-class filters being preserved). -/
theorem C9_determinism {B : Type} (O : Oracle B) (frames₁ frames₂ : List Grid)
    (b₁ b₂ : B) (u₁ u₂ d₁ d₂ : ℚ)
    (hf : frames₁ = frames₂) (hb : b₁ = b₂) (hu : u₁ = u₂) (hd : d₁ = d₂) :
    (decode_moves_from_states O frames₁ b₁ u₁ d₁
        = decode_moves_from_states O frames₂ b₂ u₂ d₂
      ∧ decode_moves_from_tags O frames₁ b₁ = decode_moves_from_tags O frames₂ b₂)
    ∧ ∀ l : List Cand,
        ((sortAsc l).Pairwise (fun c₁ c₂ => c₁.score ≤ c₂.score)
          ∧ ∀ q : ℚ, (sortAsc l).filter (fun c => decide (c.score = q))
              = l.filter (fun c => decide (c.score = q)))
        ∧ ((sortDesc l).Pairwise (fun c₁ c₂ => c₂.score ≤ c₁.score)
          ∧ ∀ q : ℚ, (sortDesc l).filter (fun c => decide (c.score = q))
              = l.filter (fun c => decide (c.score = q))) := by
  subst hf
  subst hb
  subst hu
  subst hd
  exact ⟨⟨rfl, rfl⟩, fun l =>
    ⟨⟨pairwise_sortAsc l, fun q => filter_sortAsc q l⟩,
     ⟨pairwise_sortDesc l, fun q => filter_sortDesc q l⟩⟩⟩

/-- C9 witness: two runs of the toy decode on equal inputs agree. -/
theorem C9_determinism_witness :
    ([zeroGrid, occFrame1] : List Grid) = [zeroGrid, occFrame1]
    ∧ decode_moves_from_states toyO [zeroGrid, occFrame1] 0 (1/10) 2
        = decode_moves_from_states toyO [zeroGrid, occFrame1] 0 (1/10) 2 :=
  ⟨rfl, ((C9_determinism toyO [zeroGrid, occFrame1] [zeroGrid, occFrame1] 0 0
    (1/10) (1/10) 2 2 rfl rfl rfl rfl).1).1⟩

/-- C2 (code bug): the tag loop renders the committed move's notation from
the position *before* the push, but the occupancy loop pushes first and
renders from the position *after* the push — at the concrete opening run
the recorded string is the post-push rendering `"sq28@1"`, not the pre-push
rendering `"sq28@0"` that the claim requires. -/
theorem C2_san_post_push :
    decode_moves_from_states toyO [zeroGrid, occFrame1] 0 (1/10) 2 =
      .ok ([toyO.san (toyO.push 0 ⟨12, 28⟩) ⟨12, 28⟩],
        [⟨true, none, some 0, [⟨"sq28@1", 0⟩, ⟨"sq20@1", 0⟩]⟩])
    ∧ toyO.san (toyO.push 0 ⟨12, 28⟩) ⟨12, 28⟩ = "sq28@1"
    ∧ toyO.san 0 ⟨12, 28⟩ = "sq28@0"
    ∧ ("sq28@1" : String) ≠ "sq28@0"
    ∧ decode_moves_from_tags toyO [zeroGrid, zeroGrid] 0 =
        .ok ([toyO.san 0 ⟨12, 28⟩],
          [⟨false, none, some 10, [⟨"sq28@0", 10⟩, ⟨"sq20@1", 10⟩]⟩]) := by
  refine ⟨?_, by decide, by decide, by decide, ?_⟩
  · norm_num [decode_moves_from_states, statesLoop, board_state_to_occupancy,
      compute_changed_squares, find_best_move_weighted, weighted_candidates,
      compute_occupancy_distance_weighted, fen_to_occupancy, sortAsc, insertAsc,
      squares_eq, toyO, zeroGrid, occFrame1, square_rank, square_file]
    decide
  · norm_num [decode_moves_from_tags, tagsLoop, find_best_move_tags, tags_candidates,
      score_move_tags, infer_id_mapping, sortDesc, insertDesc, toyO, zeroGrid,
      square_rank, square_file, List.range]
    decide

/-- C3 counterexample: an observation sequence whose second ID grid holds
the out-of-domain (negative) cell value −5 is decoded without any error:
the run returns a successful, nonempty move list instead of aborting with a
fatal contract violation. -/
theorem C3_counterexample :
    idFrameNeg 4 4 = -5
    ∧ decode_moves_from_tags toyO [idFrame0, idFrameNeg] 0 =
        .ok (["sq20@0"], [⟨false, none, some 0, [⟨"sq20@0", 0⟩, ⟨"sq28@1", -40⟩]⟩]) := by
  refine ⟨rfl, ?_⟩
  norm_num [decode_moves_from_tags, tagsLoop, find_best_move_tags, tags_candidates,
    score_move_tags, infer_id_mapping, sortDesc, insertDesc, toyO, idFrame0,
    idFrameNeg, square_rank, square_file, List.range]
  decide

/-- C3 (amended): the decoders validate nothing about grid contents — for
every nonempty observation sequence, over arbitrary integer grids, both
modes return a successful result; no contract-violation error path exists. -/
theorem C3_no_validation {B : Type} (O : Oracle B) (b0 : B) (u d : ℚ)
    (first : Grid) (rest : List Grid) :
    (∃ r, decode_moves_from_states O (first :: rest) b0 u d = .ok r)
    ∧ (∃ r, decode_moves_from_tags O (first :: rest) b0 = .ok r) :=
  ⟨⟨_, rfl⟩, ⟨_, rfl⟩⟩

/-- C5: on a resolved occupancy step the uncertain flag is set iff the gap
between the best and second-best score is below `uncertain_threshold` or
the best score exceeds `dist_threshold`; on a resolved tag step the flag is
always false. -/
theorem C5_uncertainty {B : Type} (O : Oracle B) (u d : ℚ) (b : B)
    (prev curr prevIds currIds : Grid) (rest : List Grid)
    (id_map : Int → Option Piece) (m m' : Move) (s s' : ℚ)
    (cands cands' : List Cand) :
    (find_best_move_weighted O b prev curr (compute_changed_squares prev curr)
        = (some m, s, cands) →
      ((statesLoop O u d b prev (curr :: rest)).2.head?.map Conf.uncertain
          = some true ↔
        (∃ c2, cands[1]? = some c2 ∧ c2.score - s < u) ∨ s > d))
    ∧ (find_best_move_tags O b prevIds currIds id_map = (some m', s', cands') →
        (tagsLoop O id_map b prevIds (currIds :: rest)).2.head?.map Conf.uncertain
          = some false) := by
  constructor
  · intro hF
    simp only [statesLoop, board_state_to_occupancy, hF]
    rcases cands with _ | ⟨c1, _ | ⟨c2, tl⟩⟩
    · simp
    · simp
    · simp
  · intro hF
    simp only [tagsLoop, hF]
    simp

/-- C5 witness: the toy occupancy step resolves with two tied candidates
(gap 0 < 1/10, so uncertain), and the toy tag step resolves with
uncertain = false. -/
theorem C5_uncertainty_witness :
    find_best_move_weighted toyO 0 zeroGrid occFrame1
        (compute_changed_squares zeroGrid occFrame1)
      = (some ⟨12, 28⟩, 0, [⟨⟨12, 28⟩, 0⟩, ⟨⟨12, 20⟩, 0⟩])
    ∧ ((statesLoop toyO (1/10) 2 0 zeroGrid [occFrame1]).2.head?.map Conf.uncertain
          = some true ↔
        (∃ c2, ([⟨⟨12, 28⟩, 0⟩, ⟨⟨12, 20⟩, 0⟩] : List Cand)[1]? = some c2 ∧
          c2.score - 0 < 1/10) ∨ (0 : ℚ) > 2)
    ∧ find_best_move_tags toyO 0 idFrame0 idFrameNeg (fun _ => none)
        = (some ⟨12, 20⟩, 0, [⟨⟨12, 20⟩, 0⟩, ⟨⟨12, 28⟩, -40⟩])
    ∧ (tagsLoop toyO (fun _ => none) 0 idFrame0 [idFrameNeg]).2.head?.map Conf.uncertain
        = some false := by
  have hOcc : find_best_move_weighted toyO 0 zeroGrid occFrame1
      (compute_changed_squares zeroGrid occFrame1)
      = (some ⟨12, 28⟩, 0, [⟨⟨12, 28⟩, 0⟩, ⟨⟨12, 20⟩, 0⟩]) := by
    norm_num [find_best_move_weighted, weighted_candidates,
      compute_occupancy_distance_weighted, fen_to_occupancy, compute_changed_squares,
      sortAsc, insertAsc, squares_eq, toyO, zeroGrid, occFrame1, square_rank,
      square_file]
  have hTag : find_best_move_tags toyO 0 idFrame0 idFrameNeg (fun _ => none)
      = (some ⟨12, 20⟩, 0, [⟨⟨12, 20⟩, 0⟩, ⟨⟨12, 28⟩, -40⟩]) := by
    norm_num [find_best_move_tags, tags_candidates, score_move_tags, sortDesc,
      insertDesc, toyO, idFrame0, idFrameNeg, square_rank, square_file]
  exact ⟨hOcc,
    (C5_uncertainty toyO (1/10) 2 0 zeroGrid occFrame1 idFrame0 idFrameNeg []
      (fun _ => none) ⟨12, 28⟩ ⟨12, 20⟩ 0 0 [⟨⟨12, 28⟩, 0⟩, ⟨⟨12, 20⟩, 0⟩]
      [⟨⟨12, 20⟩, 0⟩, ⟨⟨12, 28⟩, -40⟩]).1 hOcc,
    hTag,
    (C5_uncertainty toyO (1/10) 2 0 zeroGrid occFrame1 idFrame0 idFrameNeg []
      (fun _ => none) ⟨12, 28⟩ ⟨12, 20⟩ 0 0 [⟨⟨12, 28⟩, 0⟩, ⟨⟨12, 20⟩, 0⟩]
      [⟨⟨12, 20⟩, 0⟩, ⟨⟨12, 28⟩, -40⟩]).2 hTag⟩

/-- C7 counterexample: a single-frame input is decoded by both modes into
an empty-but-successful result (empty move list, empty confidence list, no
error), not a definitive insufficient-data condition. -/
theorem C7_counterexample :
    decode_moves_from_states toyO [occFrame1] 0 (1/10) 2 = .ok ([], [])
    ∧ decode_moves_from_tags toyO [occFrame1] 0 = .ok ([], []) :=
  ⟨rfl, rfl⟩

/-- C7 (amended): with exactly one frame both modes return the
empty-but-successful `([], [])`; with zero frames both raise an uncontrolled
index error (`board_states[0]`), not a deliberate insufficient-data report. -/
theorem C7_boundary {B : Type} (O : Oracle B) (b0 : B) (u d : ℚ) (g : Grid) :
    decode_moves_from_states O [g] b0 u d = .ok ([], [])
    ∧ decode_moves_from_tags O [g] b0 = .ok ([], [])
    ∧ decode_moves_from_states O ([] : List Grid) b0 u d = .error .indexError
    ∧ decode_moves_from_tags O ([] : List Grid) b0 = .error .indexError :=
  ⟨rfl, rfl, rfl, rfl⟩

/-- C10: in both modes the finder returns no best move and an empty ranking
exactly when the position has no legal moves; when legal moves exist every
one of them is scored; an unresolved step records the "??" sentinel and
leaves the position unchanged, while a resolved step always commits the
finder's top candidate (recording its notation and continuing from the
pushed position), however poor its score. -/
theorem C10_resolution {B : Type} (O : Oracle B) (b : B)
    (prev curr prevIds currIds : Grid) (id_map : Int → Option Piece)
    (u d : ℚ) (rest : List Grid) :
    ((find_best_move_weighted O b prev curr
        (compute_changed_squares prev curr)).1 = none ↔ O.legal_moves b = [])
    ∧ ((find_best_move_weighted O b prev curr
        (compute_changed_squares prev curr)).2.2 = [] ↔ O.legal_moves b = [])
    ∧ ((find_best_move_tags O b prevIds currIds id_map).1 = none ↔
        O.legal_moves b = [])
    ∧ ((find_best_move_tags O b prevIds currIds id_map).2.2 = [] ↔
        O.legal_moves b = [])
    ∧ (∀ mv ∈ O.legal_moves b,
        (⟨mv, compute_occupancy_distance_weighted
          (fen_to_occupancy (O.piece_at (O.push b mv))) curr
          (compute_changed_squares prev curr)⟩ : Cand)
          ∈ weighted_candidates O b (O.legal_moves b) curr
              (compute_changed_squares prev curr))
    ∧ (∀ mv ∈ O.legal_moves b,
        (⟨mv, score_move_tags O b mv prevIds currIds id_map⟩ : Cand)
          ∈ tags_candidates O b (O.legal_moves b) prevIds currIds id_map)
    ∧ (O.legal_moves b = [] →
        statesLoop O u d b prev (curr :: rest)
          = ("??" :: (statesLoop O u d b prev rest).1,
             statesUnresolvedConf :: (statesLoop O u d b prev rest).2)
        ∧ tagsLoop O id_map b prevIds (currIds :: rest)
          = ("??" :: (tagsLoop O id_map b currIds rest).1,
             tagsUnresolvedConf :: (tagsLoop O id_map b currIds rest).2))
    ∧ (∀ m s cands,
        find_best_move_weighted O b prev curr (compute_changed_squares prev curr)
            = (some m, s, cands) →
          (statesLoop O u d b prev (curr :: rest)).1.head?
              = some (O.san (O.push b m) m)
          ∧ (statesLoop O u d b prev (curr :: rest)).1.tail
              = (statesLoop O u d (O.push b m) curr rest).1)
    ∧ (∀ m s cands,
        find_best_move_tags O b prevIds currIds id_map = (some m, s, cands) →
          (tagsLoop O id_map b prevIds (currIds :: rest)).1.head?
              = some (O.san b m)
          ∧ (tagsLoop O id_map b prevIds (currIds :: rest)).1.tail
              = (tagsLoop O id_map (O.push b m) currIds rest).1) := by
  refine ⟨find_best_move_weighted_none_iff O b prev curr _,
    find_best_move_weighted_cands_nil_iff O b prev curr _,
    find_best_move_tags_none_iff O b prevIds currIds id_map,
    find_best_move_tags_cands_nil_iff O b prevIds currIds id_map,
    fun mv h => List.mem_map_of_mem _ h,
    fun mv h => List.mem_map_of_mem _ h,
    ?_, ?_, ?_⟩
  · intro hL
    have hFw : find_best_move_weighted O b prev curr
        (compute_changed_squares prev curr) = (none, 0, []) := by
      rw [find_best_move_weighted_eq, hL]
      simp [weighted_candidates, sortAsc]
    have hFt : find_best_move_tags O b prevIds currIds id_map = (none, 0, []) := by
      rw [find_best_move_tags_eq, hL]
      simp [tags_candidates, sortDesc]
    constructor
    · simp only [statesLoop, board_state_to_occupancy, hFw]
    · simp only [tagsLoop, hFt]
  · intro m s cands hF
    simp only [statesLoop, board_state_to_occupancy, hF]
    exact ⟨rfl, rfl⟩
  · intro m s cands hF
    simp only [tagsLoop, hF]
    exact ⟨rfl, rfl⟩

/-- C10 witness: at toy position 5 there are no legal moves, and the
occupancy and tag steps record the "??" sentinel and continue from the
unchanged position. -/
theorem C10_resolution_witness :
    toyO.legal_moves 5 = []
    ∧ statesLoop toyO (1/10) 2 5 zeroGrid [occFrame1]
        = ("??" :: (statesLoop toyO (1/10) 2 5 zeroGrid []).1,
           statesUnresolvedConf :: (statesLoop toyO (1/10) 2 5 zeroGrid []).2)
    ∧ tagsLoop toyO (fun _ => none) 5 idFrame0 [idFrameNeg]
        = ("??" :: (tagsLoop toyO (fun _ => none) 5 idFrameNeg []).1,
           tagsUnresolvedConf :: (tagsLoop toyO (fun _ => none) 5 idFrameNeg []).2) := by
  have h : toyO.legal_moves 5 = [] := rfl
  have := (C10_resolution toyO 5 zeroGrid occFrame1 idFrame0 idFrameNeg
    (fun _ => none) (1/10) 2 []).2.2.2.2.2.2.1 h
  exact ⟨h, this.1, this.2⟩

end Otb
